import Mathlib

/-!
Verification of the script-generator coordination core, shallowly embedded
from the Python source:

* `app/utils/websocket_manager.py` (ConnectionManager: connect, disconnect,
  send_to_collection),
* `app/routes/scripting_routes.py` (in-memory job tracker `generation_tasks`,
  `create_script`, `get_script_status`, `generate_script_in_background`),
* `app/providers/message_broker.py` (`consume_data_collected` ack behaviour),
* `app/__init__.py` (`handle_data_collected` pipeline).

Python dicts are embedded as association lists preserving insertion order;
Python object identity on WebSocket instances is embedded as a numeric id.
The transport behaviour of a session (whether its state is CONNECTED and
whether `send_json` raises) is fixed per session, which suffices for the
per-broadcast claims considered here.
-/

/-- Starlette client states, from `starlette.websockets.WebSocketState`. -/
inductive WebSocketState where
  | CONNECTING
  | CONNECTED
  | DISCONNECTED
deriving DecidableEq, Repr

/-- A transport session: `id` stands for Python object identity,
`client_state` is the value of `websocket.client_state`, and `send_raises`
says whether `await websocket.send_json ...` raises for this session. -/
structure WebSocket where
  id : Nat
  client_state : WebSocketState
  send_raises : Bool
deriving DecidableEq, Repr

/-- First value bound to a key in an ordered association list; embeds
Python dict lookup (`d[k]` / `k in d`). -/
def findKey {β : Type} : List (String × β) → String → Option β
  | [], _ => none
  | p :: rest, key => if p.1 = key then some p.2 else findKey rest key

/-- Dict assignment `d[k] = v`: replace the value in place, or append the
key at the end (Python dicts preserve insertion order). -/
def setKey {β : Type} : List (String × β) → String → β → List (String × β)
  | [], k, v => [(k, v)]
  | p :: rest, k, v =>
    if p.1 = k then (k, v) :: rest else p :: setKey rest k v

/-- Dict deletion `del d[k]` (no-op when the key is absent, matching the
guarded deletes in the source). -/
def eraseKey {β : Type} : List (String × β) → String → List (String × β)
  | [], _ => []
  | p :: rest, k => if p.1 = k then rest else p :: eraseKey rest k

/-- State of `ConnectionManager` (`websocket_manager.py`):
`active_connections : List[WebSocket]` and
`collection_connections : Dict[str, List[WebSocket]]`. -/
structure ConnectionManager where
  active_connections : List WebSocket
  collection_connections : List (String × List WebSocket)
deriving DecidableEq, Repr

/-- `ConnectionManager.__init__`: empty registry. -/
def emptyManager : ConnectionManager := ⟨[], []⟩

/-- `ConnectionManager.connect(websocket, collection_id)`: append to
`active_connections` if absent; if `collection_id` is truthy (a non-empty
string), create the group if absent and append the socket if absent. -/
def ConnectionManager.connect (m : ConnectionManager) (websocket : WebSocket)
    (collection_id : Option String) : ConnectionManager :=
  let active :=
    if websocket ∈ m.active_connections then m.active_connections
    else m.active_connections ++ [websocket]
  match collection_id with
  | some cid =>
    if cid ≠ "" then
      let groups0 :=
        if (findKey m.collection_connections cid).isSome then m.collection_connections
        else m.collection_connections ++ [(cid, [])]
      let groups := groups0.map (fun p =>
        if p.1 = cid then
          (p.1, if websocket ∈ p.2 then p.2 else p.2 ++ [websocket])
        else p)
      ⟨active, groups⟩
    else ⟨active, m.collection_connections⟩
  | none => ⟨active, m.collection_connections⟩

/-- The loop body of `ConnectionManager.disconnect` over
`list(self.collection_connections.items())`: remove the socket from each
group containing it and drop groups that become empty. -/
def removeFromGroups : List (String × List WebSocket) → WebSocket →
    List (String × List WebSocket)
  | [], _ => []
  | p :: rest, ws =>
    if ws ∈ p.2 then
      if p.2.erase ws = [] then removeFromGroups rest ws
      else (p.1, p.2.erase ws) :: removeFromGroups rest ws
    else p :: removeFromGroups rest ws

/-- `ConnectionManager.disconnect(websocket, collection_id)`: remove from
`active_connections` (Python `list.remove`, first occurrence) and from every
collection group; the `collection_id` argument is never read by the body. -/
def ConnectionManager.disconnect (m : ConnectionManager) (websocket : WebSocket)
    (collection_id : Option String) : ConnectionManager :=
  ⟨m.active_connections.erase websocket,
   removeFromGroups m.collection_connections websocket⟩

/-- Whether the `try` body succeeds for a session in `send_to_collection`:
`client_state == CONNECTED` and `send_json` does not raise. -/
def okSend (c : WebSocket) : Bool :=
  c.client_state == WebSocketState.CONNECTED && !c.send_raises

/-- Whether a session is collected into `disconnected` by the loop of
`send_to_collection`: not CONNECTED, or `send_json` raised. -/
def badSend (c : WebSocket) : Bool :=
  !(c.client_state == WebSocketState.CONNECTED) || c.send_raises

/-- The `for connection in self.collection_connections[collection_id]` loop
of `send_to_collection`: threads `successful_sends`, the successfully sent
list, and the `disconnected` list. -/
def broadcastLoop : List WebSocket → Nat → List WebSocket → List WebSocket →
    Nat × List WebSocket × List WebSocket
  | [], sends, delivered, disconnected => (sends, delivered, disconnected)
  | c :: rest, sends, delivered, disconnected =>
    if c.client_state = WebSocketState.CONNECTED then
      if c.send_raises then
        broadcastLoop rest sends delivered (disconnected ++ [c])
      else
        broadcastLoop rest (sends + 1) (delivered ++ [c]) disconnected
    else
      broadcastLoop rest sends delivered (disconnected ++ [c])

/-- Observable outcome of one `send_to_collection` call: the registry state
after the cleanup loop, the Python return value (the source has no `return
value` statement, so every path returns `None`), the final value of the
local `successful_sends` counter, the membership snapshot that was iterated,
the sessions that received the message, and the sessions collected into
`disconnected` and evicted after the iteration. -/
structure BroadcastResult where
  manager : ConnectionManager
  retval : Option Nat
  successful_sends : Nat
  iterated : List WebSocket
  delivered : List WebSocket
  evicted : List WebSocket
deriving DecidableEq, Repr

/-- `ConnectionManager.send_to_collection(collection_id, message)`: early
return when the key is absent; otherwise iterate the group, then run
`self.disconnect(connection)` for each collected session after the loop. -/
def ConnectionManager.send_to_collection (m : ConnectionManager)
    (collection_id : String) (message : List (String × String)) : BroadcastResult :=
  match findKey m.collection_connections collection_id with
  | none => ⟨m, none, 0, [], [], []⟩
  | some conns =>
    let r := broadcastLoop conns 0 [] []
    let m2 := r.2.2.foldl (fun acc c => acc.disconnect c none) m
    ⟨m2, none, r.1, conns, r.2.1, r.2.2⟩

/-! ## Job tracker (`scripting_routes.py`) -/

/-- One entry of the in-memory `generation_tasks` dict. The source statuses
are the strings `queued`, `in_progress`, `finalizing`, `completed`, `error`
(the design names Queued, Processing, Finalizing, Completed, Failed map to
these in order); `error` is present only on the failure record. -/
structure TaskRecord where
  status : String
  progress : ℚ
  error : Option String
deriving DecidableEq, Repr

/-- The module-level dict `generation_tasks`. -/
abbrev TaskMap := List (String × TaskRecord)

/-- Response body of `POST /scripts` (`create_script`). -/
structure CreateResponse where
  script_id : String
  status : String
  message : String
deriving DecidableEq, Repr

/-- `create_script`: the freshly generated `uuid4` id is the `script_id`
argument; the handler assigns `generation_tasks[script_id] = {"status":
"queued", "progress": 0.0}` unconditionally and returns the queued
response. (No duplicate check exists in the source.) -/
def create_script (tasks : TaskMap) (script_id : String) :
    TaskMap × CreateResponse :=
  (setKey tasks script_id ⟨"queued", 0, none⟩,
   ⟨script_id, "queued", "Script generation started"⟩)

/-- Result of `GET /scripts/id/status` (`get_script_status`): the tracker
record when present, else a synthetic completed response when the
repository has the document, else 404. -/
inductive StatusResponse where
  | fromTracker (rec : TaskRecord)
  | completedRepo
  | notFound404
deriving DecidableEq, Repr

/-- `get_script_status`: tracker first, then repository (`repoHas` embeds
whether `script_repository.find_one` returns a document). -/
def get_script_status (tasks : TaskMap) (repoHas : Bool) (script_id : String) :
    StatusResponse :=
  match findKey tasks script_id with
  | some rec => .fromTracker rec
  | none => if repoHas then .completedRepo else .notFound404

/-- A timestamped mutation of `generation_tasks` performed by the background
task: `set t id rec` is `generation_tasks[id] = rec` at time `t`, and
`remove t id` is the guarded `del generation_tasks[id]` at time `t`. -/
inductive TrackerEvent where
  | set (t : ℚ) (script_id : String) (rec : TaskRecord)
  | remove (t : ℚ) (script_id : String)
deriving DecidableEq, Repr

/-- Apply one tracker event to the dict. -/
def applyEvent (tasks : TaskMap) : TrackerEvent → TaskMap
  | .set _ script_id rec => setKey tasks script_id rec
  | .remove _ script_id => eraseKey tasks script_id

/-- Apply a trace of tracker events in order. -/
def runEvents (tasks : TaskMap) (evs : List TrackerEvent) : TaskMap :=
  evs.foldl applyEvent tasks

/-- The `try` body of `generate_script_in_background`, as the trace of
tracker mutations it performs plus the exception it raises, if any.
`gen` is the outcome of `await script_generator.generate_script(request)`.
The persistence step `script_repository.insert_one(script)` cannot raise:
its body wraps the Mongo call in a `try` whose `except Exception` clause
returns `False` (`script_repository.py`), so its outcome is the Bool
`insertOk` — and the background task discards that return value, so the
trace does not depend on `insertOk` and a falsy insert still reaches the
completed record. All steps happen at call time `t0`; the only suspension
with a clock is `await asyncio.sleep(300)` before the guarded delete, so
the delete is stamped `t0 + 300`. -/
def bgTryBody (script_id : String) (gen : Except String Unit)
    (insertOk : Bool) (t0 : ℚ) :
    List TrackerEvent × Option String :=
  let ev1 := TrackerEvent.set t0 script_id ⟨"in_progress", 0.1, none⟩
  match gen with
  | .error e => ([ev1], some e)
  | .ok _ =>
    let ev2 := TrackerEvent.set t0 script_id ⟨"finalizing", 0.9, none⟩
    ([ev1, ev2, TrackerEvent.set t0 script_id ⟨"completed", 1, none⟩,
      TrackerEvent.remove (t0 + 300) script_id], none)

/-- `generate_script_in_background(script_id, request)`: the `except
Exception` clause catches any raise from the body, writes the error record
`{"status": "error", "progress": 0, "error": str(e)}` and returns
normally; the function is total here, which embeds that no exception
propagates past it. -/
def generate_script_in_background (script_id : String)
    (gen : Except String Unit) (insertOk : Bool) (t0 : ℚ) :
    List TrackerEvent :=
  match bgTryBody script_id gen insertOk t0 with
  | (evs, none) => evs
  | (evs, some e) => evs ++ [TrackerEvent.set t0 script_id ⟨"error", 0, some e⟩]

/-! ## Broker gateway (`message_broker.py`) -/

/-- The inbound broker event, i.e. the decoded message body consumed by
`consume_data_collected` and read with `.get` by `handle_data_collected`. -/
structure InboundEvent where
  source_name : Option String
  collection_id : Option String
  source_type : Option String
  script_type : Option String
  target_audience : Option String
  duration : Option String
  style_description : Option String
  tone : Option String
  language : Option String
  content : Option String
deriving DecidableEq, Repr

/-- What `aio_pika` does with the message after the
`async with message.process()` block: ack on normal exit, reject (so the
broker may redeliver) when the block raises. -/
inductive AckAction where
  | ack
  | reject
deriving DecidableEq, Repr

/-- Outcome of one `await callback(data, headers)` invocation. -/
inductive HandlerOutcome where
  | returns
  | raises (msg : String)
deriving DecidableEq, Repr

/-- The body of the `async with message.process()` block in
`consume_data_collected`: decode failures are caught by the
`except json.JSONDecodeError` clause and handler raises by the
`except Exception` clause, both inside the block, so the block itself
raises in neither case. -/
def processBlockBody (decoded : Except String InboundEvent)
    (handler : InboundEvent → HandlerOutcome) : Except String Unit :=
  match decoded with
  | .error _ => .ok ()
  | .ok ev =>
    match handler ev with
    | .returns => .ok ()
    | .raises _ => .ok ()

/-- Acknowledgement decision for one consumed message: ack exactly when the
`message.process()` block exits without raising. -/
def consumeOne (decoded : Except String InboundEvent)
    (handler : InboundEvent → HandlerOutcome) : AckAction :=
  match processBlockBody decoded handler with
  | .ok _ => .ack
  | .error _ => .reject

/-! ## Generation pipeline (`handle_data_collected` in `app/__init__.py`) -/

/-- The script dict as stored: after `handle_data_collected` decorates the
generated dict, it carries the id (the pre-existing `_id` or the fresh
`uuid4`), `collection_id`, `source_type` and `source_name` from the
message; the generated content itself is opaque to the claims. -/
structure StoredScript where
  script_id : String
  collection_id : Option String
  source_type : Option String
  source_name : Option String
deriving DecidableEq, Repr

/-- The outcome of `script_generator.generate_script`: a dict that may or
may not already carry an `_id` key. -/
structure GeneratedScript where
  preset_id : Option String
deriving DecidableEq, Repr

/-- Payload of `message_broker.publish_script_generated` as built by
`handle_data_collected`. -/
structure OutboundEvent where
  script : StoredScript
  source_type : Option String
  source_name : Option String
  collection_id : Option String
  script_id : Option String
deriving DecidableEq, Repr

/-- An observable side effect of one `handle_data_collected` run: the
`insert_one` call, the `send_to_collection` call with the frame it sent and
the sessions that received it, and the `publish_script_generated` call. -/
inductive PipelineEffect where
  | insertDoc (doc : StoredScript)
  | broadcast (collection_id : String) (frame : List (String × String))
      (delivered : List WebSocket)
  | publish (out : OutboundEvent)
deriving DecidableEq, Repr

/-- The notification dict literal built by `handle_data_collected`, in
source order of its keys. -/
def notificationFrame (collection_id script_id : String) :
    List (String × String) :=
  [("type", "script_generated"),
   ("collection_id", collection_id),
   ("script_id", script_id),
   ("message", "Script generation completed"),
   ("status", "completed")]

/-- `handle_data_collected(message, headers)`: `gen` is the outcome of the
backend call, `ins` the outcome of `script_repository.insert_one` (raise,
or return a truthy or falsy result). The outer `except Exception` catches
any raise, so the function always returns normally; the inner `except` around
`send_to_collection` is never hit because the embedded broadcast is total.
The publish call is attempted on every path that reaches it regardless of
its own outcome, which the outer clause would also swallow. Returns the
registry state after the broadcast and the effect trace in program order. -/
def handle_data_collected (msg : InboundEvent)
    (gen : Except String GeneratedScript) (ins : Except String Bool)
    (freshId : String) (cm : ConnectionManager) :
    ConnectionManager × List PipelineEffect :=
  match gen with
  | .error _ => (cm, [])
  | .ok g =>
    let sid := g.preset_id.getD freshId
    let script : StoredScript :=
      ⟨sid, msg.collection_id, msg.source_type, msg.source_name⟩
    match ins with
    | .error _ => (cm, [PipelineEffect.insertDoc script])
    | .ok result =>
      let out : OutboundEvent :=
        ⟨script, msg.source_type, msg.source_name, msg.collection_id, some sid⟩
      if result then
        match msg.collection_id with
        | some cid =>
          if cid ≠ "" then
            let frame := notificationFrame cid sid
            let br := cm.send_to_collection cid frame
            (br.manager,
             [PipelineEffect.insertDoc script,
              PipelineEffect.broadcast cid frame br.delivered,
              PipelineEffect.publish out])
          else
            (cm, [PipelineEffect.insertDoc script, PipelineEffect.publish out])
        | none =>
          (cm, [PipelineEffect.insertDoc script, PipelineEffect.publish out])
      else
        (cm, [PipelineEffect.insertDoc script, PipelineEffect.publish out])

/-! ## Spec-side forms, for comparison with the source -/

/-- The notification form stated by the specification
(type, collection id, job id, status), used only to compare against
`notificationFrame` from the source. -/
def specNotification (collection_id job_id : String) :
    List (String × String) :=
  [("type", "script_generated"),
   ("collection_id", collection_id),
   ("job_id", job_id),
   ("status", "completed")]

/-- The return value the specification assigns to broadcast: the count of
sessions that accepted the message, and 0 when the group is absent or
empty. Used only to compare against the return value of
`send_to_collection` from the source. -/
def specBroadcastReturn (m : ConnectionManager) (collection_id : String) :
    Option Nat :=
  some (((findKey m.collection_connections collection_id).getD []).filter
    okSend).length

/-! ## Registry operation sequences -/

/-- One registry operation, for stating invariants over arbitrary
interleavings of the three public entry points. -/
inductive RegistryOp where
  | connectOp (ws : WebSocket) (cid : Option String)
  | disconnectOp (ws : WebSocket) (cid : Option String)
  | broadcastOp (cid : String) (msg : List (String × String))

/-- Apply one registry operation. -/
def applyOp (m : ConnectionManager) : RegistryOp → ConnectionManager
  | .connectOp ws cid => m.connect ws cid
  | .disconnectOp ws cid => m.disconnect ws cid
  | .broadcastOp cid msg => (m.send_to_collection cid msg).manager

/-- Run a sequence of registry operations from the initial empty state. -/
def runOps (ops : List RegistryOp) : ConnectionManager :=
  ops.foldl applyOp emptyManager

/-- Well-formedness of the registry state: no duplicate sessions in the
global list, no duplicate group keys, and every group duplicate-free,
nonempty, and contained in the global list. -/
def RegistryWF (m : ConnectionManager) : Prop :=
  m.active_connections.Nodup ∧
  (m.collection_connections.map Prod.fst).Nodup ∧
  ∀ p ∈ m.collection_connections,
    p.2.Nodup ∧ p.2 ≠ [] ∧ ∀ w ∈ p.2, w ∈ m.active_connections

/-! ## Concrete instances used by witnesses and counterexamples -/

/-- A healthy session: connected, sends succeed. -/
def wsGood : WebSocket := ⟨1, .CONNECTED, false⟩

/-- A session whose transport raises on send. -/
def wsBad : WebSocket := ⟨2, .CONNECTED, true⟩

/-- A session whose transport is no longer connected. -/
def wsStale : WebSocket := ⟨3, .DISCONNECTED, false⟩

/-- A registry with one group `c1` holding a failing and a healthy session. -/
def mEx : ConnectionManager := ⟨[wsBad, wsGood], [("c1", [wsBad, wsGood])]⟩

/-- A sample decoded inbound event for collection `c1`. -/
def msgEx : InboundEvent :=
  ⟨some "src", some "c1", some "web", some "educational", some "general",
   some "60", some "modern", some "informative", some "en", some "data"⟩

/-- A tracker holding one completed job `j1`. -/
def tasksEx : TaskMap := [("j1", ⟨"completed", 1, none⟩)]

/-- Bool test for a tracker removal event. -/
def isRemoveEvent : TrackerEvent → Bool
  | .remove _ _ => true
  | .set _ _ _ => false

/-- Bool test for a tracker write of the failure record. -/
def isErrorSet : TrackerEvent → Bool
  | .set _ _ rec => rec.status == "error"
  | .remove _ _ => false

/-! ## Association list lemmas -/

theorem findKey_eq_none_iff {β : Type} (l : List (String × β)) (k : String) :
    findKey l k = none ↔ k ∉ l.map Prod.fst := by
  induction l with
  | nil => simp [findKey]
  | cons p rest ih =>
    by_cases h : p.1 = k
    · simp [findKey, h]
    · simp only [findKey, if_neg h, List.map_cons, List.mem_cons, not_or, ih]
      exact ⟨fun hk => ⟨fun he => h he.symm, hk⟩, fun hk => hk.2⟩

theorem findKey_mem {β : Type} {l : List (String × β)} {k : String} {v : β}
    (h : findKey l k = some v) : (k, v) ∈ l := by
  induction l with
  | nil => simp [findKey] at h
  | cons p rest ih =>
    by_cases hp : p.1 = k
    · simp only [findKey, if_pos hp, Option.some.injEq] at h
      have : p = (k, v) := by
        obtain ⟨a, b⟩ := p
        simp only [Prod.mk.injEq]
        exact ⟨hp, h⟩
      rw [← this]
      exact List.mem_cons_self p rest
    · simp only [findKey, if_neg hp] at h
      exact List.mem_cons_of_mem _ (ih h)

theorem findKey_unique {β : Type} {l : List (String × β)} {k : String} {v : β}
    (hn : (l.map Prod.fst).Nodup) (hfind : findKey l k = some v) :
    ∀ p ∈ l, p.1 = k → p = (k, v) := by
  induction l with
  | nil => simp
  | cons q rest ih =>
    simp only [List.map_cons, List.nodup_cons] at hn
    intro p hp hpk
    rcases List.mem_cons.mp hp with hp | hp
    · subst hp
      simp only [findKey, if_pos hpk, Option.some.injEq] at hfind
      obtain ⟨a, b⟩ := p
      simp only [Prod.mk.injEq]
      exact ⟨hpk, hfind⟩
    · have hkrest : k ∈ rest.map Prod.fst := hpk ▸ List.mem_map_of_mem Prod.fst hp
      by_cases hq : q.1 = k
      · exact absurd (hq ▸ hkrest) hn.1
      · simp only [findKey, if_neg hq] at hfind
        exact ih hn.2 hfind p hp hpk

theorem findKey_setKey_self {β : Type} (l : List (String × β)) (k : String)
    (v : β) : findKey (setKey l k v) k = some v := by
  induction l with
  | nil => simp [setKey, findKey]
  | cons p rest ih =>
    by_cases h : p.1 = k <;> simp [setKey, findKey, h, ih]

theorem findKey_setKey_ne {β : Type} (l : List (String × β)) (k j : String)
    (v : β) (hne : j ≠ k) : findKey (setKey l k v) j = findKey l j := by
  induction l with
  | nil => simp [setKey, findKey, Ne.symm hne]
  | cons p rest ih =>
    by_cases h : p.1 = k
    · simp [setKey, findKey, h, Ne.symm hne]
    · by_cases hj : p.1 = j <;> simp [setKey, findKey, h, hj, hne, ih]

theorem setKey_keys {β : Type} (l : List (String × β)) (k : String) (v : β) :
    (setKey l k v).map Prod.fst =
      if k ∈ l.map Prod.fst then l.map Prod.fst else l.map Prod.fst ++ [k] := by
  induction l with
  | nil => simp [setKey]
  | cons p rest ih =>
    by_cases h : p.1 = k
    · simp [setKey, h]
    · simp only [setKey, if_neg h, List.map_cons, ih]
      by_cases hk : k ∈ rest.map Prod.fst
      · simp [hk, Ne.symm h]
      · simp [hk, Ne.symm h]

theorem setKey_keys_nodup {β : Type} {l : List (String × β)} (k : String)
    (v : β) (hn : (l.map Prod.fst).Nodup) :
    ((setKey l k v).map Prod.fst).Nodup := by
  rw [setKey_keys]
  by_cases hk : k ∈ l.map Prod.fst
  · simpa [hk]
  · have hd : (l.map Prod.fst).Disjoint [k] := by
      intro x hx hxk
      rw [List.mem_singleton] at hxk
      subst hxk
      exact hk hx
    simpa [hk] using hn.append (List.nodup_singleton k) hd

theorem findKey_eraseKey_self {β : Type} {l : List (String × β)} {k : String}
    (hn : (l.map Prod.fst).Nodup) : findKey (eraseKey l k) k = none := by
  induction l with
  | nil => simp [eraseKey, findKey]
  | cons p rest ih =>
    simp only [List.map_cons, List.nodup_cons] at hn
    by_cases h : p.1 = k
    · simp only [eraseKey, if_pos h]
      rw [findKey_eq_none_iff]
      exact h ▸ hn.1
    · simp [eraseKey, findKey, h, ih hn.2]

/-! ## Broadcast loop characterisation -/

theorem broadcastLoop_sends (l : List WebSocket) (s : Nat) (d dc : List WebSocket) :
    (broadcastLoop l s d dc).1 = s + (l.filter okSend).length := by
  induction l generalizing s d dc with
  | nil => simp [broadcastLoop]
  | cons c rest ih =>
    by_cases h1 : c.client_state = WebSocketState.CONNECTED
    · by_cases h2 : c.send_raises
      · simp [broadcastLoop, okSend, h1, h2, ih]
      · have h2f : c.send_raises = false := by simpa using h2
        simp [broadcastLoop, okSend, h1, h2f, ih]
        omega
    · simp [broadcastLoop, okSend, h1, ih]

theorem broadcastLoop_delivered (l : List WebSocket) (s : Nat)
    (d dc : List WebSocket) :
    (broadcastLoop l s d dc).2.1 = d ++ l.filter okSend := by
  induction l generalizing s d dc with
  | nil => simp [broadcastLoop]
  | cons c rest ih =>
    by_cases h1 : c.client_state = WebSocketState.CONNECTED
    · by_cases h2 : c.send_raises
      · simp [broadcastLoop, okSend, h1, h2, ih]
      · simp [broadcastLoop, okSend, h1, h2, ih]
    · simp [broadcastLoop, okSend, h1, ih]

theorem broadcastLoop_evicted (l : List WebSocket) (s : Nat)
    (d dc : List WebSocket) :
    (broadcastLoop l s d dc).2.2 = dc ++ l.filter badSend := by
  induction l generalizing s d dc with
  | nil => simp [broadcastLoop]
  | cons c rest ih =>
    by_cases h1 : c.client_state = WebSocketState.CONNECTED
    · by_cases h2 : c.send_raises
      · simp [broadcastLoop, badSend, h1, h2, ih]
      · simp [broadcastLoop, badSend, h1, h2, ih]
    · simp [broadcastLoop, badSend, h1, ih]

/-! ## removeFromGroups characterisation -/

theorem mem_removeFromGroups {l : List (String × List WebSocket)}
    {ws : WebSocket} {p : String × List WebSocket}
    (hp : p ∈ removeFromGroups l ws) :
    ∃ q ∈ l, p.1 = q.1 ∧
      ((ws ∉ q.2 ∧ p.2 = q.2) ∨
       (ws ∈ q.2 ∧ p.2 = q.2.erase ws ∧ p.2 ≠ [])) := by
  induction l with
  | nil => simp [removeFromGroups] at hp
  | cons q rest ih =>
    by_cases h : ws ∈ q.2
    · by_cases he : q.2.erase ws = []
      · simp only [removeFromGroups, if_pos h, if_pos he] at hp
        obtain ⟨r, hr, hrest⟩ := ih hp
        exact ⟨r, List.mem_cons_of_mem _ hr, hrest⟩
      · simp only [removeFromGroups, if_pos h, if_neg he] at hp
        rcases List.mem_cons.mp hp with hp | hp
        · refine ⟨q, List.mem_cons_self q rest, ?_, Or.inr ⟨h, ?_, ?_⟩⟩
          · rw [hp]
          · rw [hp]
          · rw [hp]
            exact he
        · obtain ⟨r, hr, hrest⟩ := ih hp
          exact ⟨r, List.mem_cons_of_mem _ hr, hrest⟩
    · simp only [removeFromGroups, if_neg h] at hp
      rcases List.mem_cons.mp hp with hp | hp
      · exact ⟨q, List.mem_cons_self q rest, by rw [hp], Or.inl ⟨h, by rw [hp]⟩⟩
      · obtain ⟨r, hr, hrest⟩ := ih hp
        exact ⟨r, List.mem_cons_of_mem _ hr, hrest⟩

theorem removeFromGroups_keys_sublist (l : List (String × List WebSocket))
    (ws : WebSocket) :
    ((removeFromGroups l ws).map Prod.fst).Sublist (l.map Prod.fst) := by
  induction l with
  | nil => simp [removeFromGroups]
  | cons q rest ih =>
    by_cases h : ws ∈ q.2
    · by_cases he : q.2.erase ws = []
      · simp only [removeFromGroups, if_pos h, if_pos he, List.map_cons]
        exact ih.cons _
      · simp only [removeFromGroups, if_pos h, if_neg he, List.map_cons]
        exact ih.cons₂ _
    · simp only [removeFromGroups, if_neg h, List.map_cons]
      exact ih.cons₂ _

theorem removeFromGroups_of_all_not_mem {l : List (String × List WebSocket)}
    {ws : WebSocket} (h : ∀ p ∈ l, ws ∉ p.2) : removeFromGroups l ws = l := by
  induction l with
  | nil => rfl
  | cons q rest ih =>
    have hq : ws ∉ q.2 := h q (List.mem_cons_self q rest)
    simp only [removeFromGroups, if_neg hq]
    rw [ih (fun p hp => h p (List.mem_cons_of_mem _ hp))]

/-! ## Registry well-formedness preservation -/

theorem registryWF_empty : RegistryWF emptyManager := by
  refine ⟨List.nodup_nil, List.nodup_nil, ?_⟩
  intro p hp
  simp [emptyManager] at hp

theorem registryWF_disconnect {m : ConnectionManager} (h : RegistryWF m)
    (ws : WebSocket) (cid : Option String) :
    RegistryWF (m.disconnect ws cid) := by
  obtain ⟨ha, hk, hg⟩ := h
  refine ⟨ha.erase ws, (removeFromGroups_keys_sublist _ _).nodup hk, ?_⟩
  intro p hp
  obtain ⟨q, hq, _, hcase⟩ := mem_removeFromGroups hp
  obtain ⟨hqn, hqne, hqsub⟩ := hg q hq
  rcases hcase with ⟨hws, hpq⟩ | ⟨_, hpq, hpne⟩
  · rw [hpq]
    refine ⟨hqn, hqne, ?_⟩
    intro w hw
    have hne : w ≠ ws := fun he => hws (he ▸ hw)
    exact (List.mem_erase_of_ne hne).mpr (hqsub w hw)
  · rw [hpq] at hpne ⊢
    refine ⟨hqn.erase ws, hpne, ?_⟩
    intro w hw
    obtain ⟨hne, hwq⟩ := hqn.mem_erase_iff.mp hw
    exact (List.mem_erase_of_ne hne).mpr (hqsub w hwq)

theorem disconnect_not_mem_active {m : ConnectionManager} (h : RegistryWF m)
    (ws : WebSocket) (cid : Option String) :
    ws ∉ (m.disconnect ws cid).active_connections := by
  intro hc
  exact (h.1.mem_erase_iff.mp hc).1 rfl

theorem disconnect_not_in_groups {m : ConnectionManager} (h : RegistryWF m)
    (ws : WebSocket) (cid : Option String) :
    ∀ p ∈ (m.disconnect ws cid).collection_connections, ws ∉ p.2 := by
  intro p hp
  obtain ⟨q, hq, _, hcase⟩ := mem_removeFromGroups hp
  obtain ⟨hqn, _, _⟩ := h.2.2 q hq
  rcases hcase with ⟨hws, hpq⟩ | ⟨_, hpq, _⟩
  · rw [hpq]
    exact hws
  · rw [hpq]
    intro hc
    exact (hqn.mem_erase_iff.mp hc).1 rfl

theorem disconnect_groups_stable {m : ConnectionManager} {x : WebSocket}
    (ws : WebSocket) (cid : Option String)
    (h : ∀ p ∈ m.collection_connections, x ∉ p.2) :
    ∀ p ∈ (m.disconnect ws cid).collection_connections, x ∉ p.2 := by
  intro p hp
  obtain ⟨q, hq, _, hcase⟩ := mem_removeFromGroups hp
  have hx := h q hq
  rcases hcase with ⟨_, hpq⟩ | ⟨_, hpq, _⟩
  · rw [hpq]
    exact hx
  · rw [hpq]
    intro hc
    exact hx (List.mem_of_mem_erase hc)

theorem disconnect_active_stable {m : ConnectionManager} {x : WebSocket}
    (ws : WebSocket) (cid : Option String)
    (h : x ∉ m.active_connections) :
    x ∉ (m.disconnect ws cid).active_connections :=
  fun hc => h (List.mem_of_mem_erase hc)

theorem registryWF_foldl_disconnect {l : List WebSocket} {m : ConnectionManager}
    (h : RegistryWF m) :
    RegistryWF (l.foldl (fun acc c => acc.disconnect c none) m) := by
  induction l generalizing m with
  | nil => exact h
  | cons c rest ih => exact ih (registryWF_disconnect h c none)

theorem foldl_disconnect_groups_stable {l : List WebSocket}
    {m : ConnectionManager} {x : WebSocket}
    (h : ∀ p ∈ m.collection_connections, x ∉ p.2) :
    ∀ p ∈ (l.foldl (fun acc c => acc.disconnect c none) m).collection_connections,
      x ∉ p.2 := by
  induction l generalizing m with
  | nil => exact h
  | cons c rest ih => exact ih (disconnect_groups_stable c none h)

theorem foldl_disconnect_active_stable {l : List WebSocket}
    {m : ConnectionManager} {x : WebSocket}
    (h : x ∉ m.active_connections) :
    x ∉ (l.foldl (fun acc c => acc.disconnect c none) m).active_connections := by
  induction l generalizing m with
  | nil => exact h
  | cons c rest ih => exact ih (disconnect_active_stable c none h)

theorem foldl_disconnect_not_in_groups {l : List WebSocket}
    {m : ConnectionManager} {ws : WebSocket} (h : RegistryWF m) (hmem : ws ∈ l) :
    ∀ p ∈ (l.foldl (fun acc c => acc.disconnect c none) m).collection_connections,
      ws ∉ p.2 := by
  induction l generalizing m with
  | nil => simp at hmem
  | cons c rest ih =>
    simp only [List.foldl_cons]
    rcases List.mem_cons.mp hmem with h1 | h1
    · subst h1
      exact foldl_disconnect_groups_stable (disconnect_not_in_groups h ws none)
    · exact ih (registryWF_disconnect h c none) h1

theorem connect_group_keys (l : List (String × List WebSocket)) (c : String)
    (ws : WebSocket) :
    ((l.map (fun p =>
      if p.1 = c then (p.1, if ws ∈ p.2 then p.2 else p.2 ++ [ws]) else p)).map
        Prod.fst) = l.map Prod.fst := by
  induction l with
  | nil => rfl
  | cons p rest ih =>
    by_cases hp : p.1 = c <;> simp [hp, ih]

theorem registryWF_connect {m : ConnectionManager} (h : RegistryWF m)
    (ws : WebSocket) (cid : Option String) :
    RegistryWF (m.connect ws cid) := by
  obtain ⟨ha, hk, hg⟩ := h
  set active := if ws ∈ m.active_connections then m.active_connections
    else m.active_connections ++ [ws] with hactive
  have hact : active.Nodup := by
    by_cases hmem : ws ∈ m.active_connections
    · simpa [hactive, hmem] using ha
    · rw [hactive, if_neg hmem]
      refine ha.append (List.nodup_singleton ws) ?_
      intro x hx hxw
      rw [List.mem_singleton] at hxw
      subst hxw
      exact hmem hx
  have hsub : ∀ w ∈ m.active_connections, w ∈ active := by
    intro w hw
    by_cases hmem : ws ∈ m.active_connections
    · simpa [hactive, hmem] using hw
    · rw [hactive, if_neg hmem]
      exact List.mem_append_left _ hw
  have hwsin : ws ∈ active := by
    by_cases hmem : ws ∈ m.active_connections
    · rw [hactive, if_pos hmem]
      exact hmem
    · rw [hactive, if_neg hmem]
      exact List.mem_append_right _ (List.mem_singleton_self ws)
  cases cid with
  | none =>
    refine ⟨hact, hk, ?_⟩
    intro p hp
    obtain ⟨h1, h2, h3⟩ := hg p hp
    exact ⟨h1, h2, fun w hw => hsub w (h3 w hw)⟩
  | some c =>
    by_cases hc : c ≠ ""
    · simp only [ConnectionManager.connect, if_pos hc]
      set groups0 := if (findKey m.collection_connections c).isSome then
        m.collection_connections else m.collection_connections ++ [(c, [])]
        with hgroups0
      have hg0keys : (groups0.map Prod.fst).Nodup := by
        by_cases hf : (findKey m.collection_connections c).isSome
        · simpa [hgroups0, hf] using hk
        · rw [hgroups0, if_neg hf]
          have hcnot : c ∉ m.collection_connections.map Prod.fst := by
            rw [← findKey_eq_none_iff]
            exact Option.not_isSome_iff_eq_none.mp hf
          rw [List.map_append]
          refine hk.append ?_ ?_
          · simp
          · intro x hx hxc
            simp only [List.map_cons, List.map_nil, List.mem_singleton] at hxc
            subst hxc
            exact hcnot hx
      have hg0mem : ∀ q ∈ groups0,
          q ∈ m.collection_connections ∨ q = (c, []) := by
        intro q hq
        by_cases hf : (findKey m.collection_connections c).isSome
        · rw [hgroups0, if_pos hf] at hq
          exact Or.inl hq
        · rw [hgroups0, if_neg hf] at hq
          rcases List.mem_append.mp hq with hq | hq
          · exact Or.inl hq
          · rw [List.mem_singleton] at hq
            exact Or.inr hq
      refine ⟨hact, ?_, ?_⟩
      · rw [connect_group_keys]
        exact hg0keys
      · intro p hp
        obtain ⟨q, hq, hfq⟩ := List.mem_map.mp hp
        by_cases hqc : q.1 = c
        · rw [if_pos hqc] at hfq
          by_cases hqws : ws ∈ q.2
          · rw [if_pos hqws] at hfq
            rcases hg0mem q hq with hqm | hqm
            · obtain ⟨h1, h2, h3⟩ := hg q hqm
              rw [← hfq]
              exact ⟨h1, h2, fun w hw => hsub w (h3 w hw)⟩
            · rw [hqm] at hqws
              simp at hqws
          · rw [if_neg hqws] at hfq
            rcases hg0mem q hq with hqm | hqm
            · obtain ⟨h1, h2, h3⟩ := hg q hqm
              rw [← hfq]
              refine ⟨?_, by simp, ?_⟩
              · refine h1.append (List.nodup_singleton ws) ?_
                intro x hx hxw
                rw [List.mem_singleton] at hxw
                subst hxw
                exact hqws hx
              · intro w hw
                rcases List.mem_append.mp hw with hw | hw
                · exact hsub w (h3 w hw)
                · rw [List.mem_singleton] at hw
                  subst hw
                  exact hwsin
            · rw [hqm] at hfq
              rw [← hfq]
              refine ⟨by simp, by simp, ?_⟩
              intro w hw
              simp only [List.nil_append, List.mem_singleton] at hw
              subst hw
              exact hwsin
        · rw [if_neg hqc] at hfq
          rcases hg0mem q hq with hqm | hqm
          · obtain ⟨h1, h2, h3⟩ := hg q hqm
            rw [← hfq]
            exact ⟨h1, h2, fun w hw => hsub w (h3 w hw)⟩
          · rw [hqm] at hqc
            simp at hqc
    · simp only [ConnectionManager.connect, if_neg hc]
      refine ⟨hact, hk, ?_⟩
      intro p hp
      obtain ⟨h1, h2, h3⟩ := hg p hp
      exact ⟨h1, h2, fun w hw => hsub w (h3 w hw)⟩

theorem registryWF_broadcast {m : ConnectionManager} (h : RegistryWF m)
    (cid : String) (msg : List (String × String)) :
    RegistryWF (m.send_to_collection cid msg).manager := by
  unfold ConnectionManager.send_to_collection
  cases hf : findKey m.collection_connections cid with
  | none => exact h
  | some conns => exact registryWF_foldl_disconnect h

theorem foldl_disconnect_not_active {l : List WebSocket}
    {m : ConnectionManager} {ws : WebSocket} (h : RegistryWF m) (hmem : ws ∈ l) :
    ws ∉ (l.foldl (fun acc c => acc.disconnect c none) m).active_connections := by
  induction l generalizing m with
  | nil => simp at hmem
  | cons c rest ih =>
    simp only [List.foldl_cons]
    rcases List.mem_cons.mp hmem with h1 | h1
    · subst h1
      exact foldl_disconnect_active_stable (disconnect_not_mem_active h ws none)
    · exact ih (registryWF_disconnect h c none) h1

theorem registryWF_applyOp {m : ConnectionManager} (h : RegistryWF m)
    (op : RegistryOp) : RegistryWF (applyOp m op) := by
  cases op with
  | connectOp ws cid => exact registryWF_connect h ws cid
  | disconnectOp ws cid => exact registryWF_disconnect h ws cid
  | broadcastOp cid msg => exact registryWF_broadcast h cid msg

theorem registryWF_foldl_ops {ops : List RegistryOp} {m : ConnectionManager}
    (h : RegistryWF m) : RegistryWF (ops.foldl applyOp m) := by
  induction ops generalizing m with
  | nil => exact h
  | cons op rest ih => exact ih (registryWF_applyOp h op)

theorem registryWF_runOps (ops : List RegistryOp) : RegistryWF (runOps ops) :=
  registryWF_foldl_ops registryWF_empty

theorem registryWF_mEx : RegistryWF mEx := by
  refine ⟨by decide, by decide, ?_⟩
  intro p hp
  rcases List.mem_singleton.mp hp with h1
  subst h1
  refine ⟨by decide, by decide, ?_⟩
  intro w hw
  rcases List.mem_cons.mp hw with h2 | h2
  · subst h2
    exact List.mem_cons_self _ _
  · rcases List.mem_singleton.mp h2 with h3
    subst h3
    exact List.mem_cons_of_mem _ (List.mem_singleton_self _)

theorem list_map_self {α : Type} {l : List α} {f : α → α}
    (h : ∀ a ∈ l, f a = a) : l.map f = l := by
  induction l with
  | nil => rfl
  | cons a rest ih =>
    rw [List.map_cons, h a (List.mem_cons_self a rest),
      ih fun b hb => h b (List.mem_cons_of_mem _ hb)]

/-! ## Claim theorems -/

/-- C6: after every sequence of connect (subscribe), disconnect
(unsubscribe) and send_to_collection (broadcast) operations from the empty
registry, every session present in a collection group is also present in
the global active list, no empty group remains in the mapping, and
removing a session removes it from both the active list and every group. -/
theorem claimC6_registry_invariant (ops : List RegistryOp) :
    (∀ p ∈ (runOps ops).collection_connections, ∀ w ∈ p.2,
      w ∈ (runOps ops).active_connections) ∧
    (∀ p ∈ (runOps ops).collection_connections, p.2 ≠ []) ∧
    (∀ (ws : WebSocket) (cid : Option String),
      ws ∉ ((runOps ops).disconnect ws cid).active_connections ∧
      ∀ p ∈ ((runOps ops).disconnect ws cid).collection_connections, ws ∉ p.2) := by
  have hwf := registryWF_runOps ops
  refine ⟨fun p hp => (hwf.2.2 p hp).2.2, fun p hp => (hwf.2.2 p hp).2.1, ?_⟩
  intro ws cid
  exact ⟨disconnect_not_mem_active hwf ws cid, disconnect_not_in_groups hwf ws cid⟩

/-- Witness for C6 at a concrete operation sequence. -/
theorem claimC6_witness :
    wsGood ∉ ((runOps [RegistryOp.connectOp wsGood (some "c1")]).disconnect
      wsGood none).active_connections :=
  ((claimC6_registry_invariant [RegistryOp.connectOp wsGood (some "c1")]).2.2
    wsGood none).1

/-- C7: subscribe and unsubscribe are idempotent. Re-subscribing a session
that is already in the active list (and, when a collection key is given,
already in that key's group) leaves the registry unchanged, so no
duplicate entry is added; unsubscribing a session that is in neither the
active list nor any group is a no-op that raises no error. -/
theorem claimC7_idempotence (m : ConnectionManager) (ws : WebSocket)
    (c : String) (conns : List WebSocket) (cid : Option String)
    (hkeys : (m.collection_connections.map Prod.fst).Nodup) :
    (ws ∈ m.active_connections → m.connect ws none = m) ∧
    (ws ∈ m.active_connections →
      findKey m.collection_connections c = some conns → ws ∈ conns →
      m.connect ws (some c) = m) ∧
    (ws ∉ m.active_connections →
      (∀ p ∈ m.collection_connections, ws ∉ p.2) →
      m.disconnect ws cid = m) := by
  refine ⟨?_, ?_, ?_⟩
  · intro hmem
    simp only [ConnectionManager.connect, if_pos hmem]
  · intro hmem hfind hin
    by_cases hc : c ≠ ""
    · simp only [ConnectionManager.connect, if_pos hc, if_pos hmem,
        hfind, Option.isSome_some, if_true]
      have hmap : m.collection_connections.map (fun p =>
          if p.1 = c then (p.1, if ws ∈ p.2 then p.2 else p.2 ++ [ws]) else p) =
          m.collection_connections := by
        refine list_map_self ?_
        intro p hp
        by_cases hpc : p.1 = c
        · have hpe : p = (c, conns) := findKey_unique hkeys hfind p hp hpc
          rw [if_pos hpc, hpe]
          simp [hin]
        · rw [if_neg hpc]
      rw [hmap]
    · simp only [ConnectionManager.connect, if_neg hc, if_pos hmem]
  · intro hmem hgr
    simp only [ConnectionManager.disconnect, List.erase_of_not_mem hmem,
      removeFromGroups_of_all_not_mem hgr]

/-- Witness for C7 at concrete registry states. -/
theorem claimC7_witness :
    mEx.connect wsGood (some "c1") = mEx ∧ mEx.disconnect wsStale none = mEx := by
  have h1 := claimC7_idempotence mEx wsGood "c1" [wsBad, wsGood] none (by decide)
  have h2 := claimC7_idempotence mEx wsStale "c1" [wsBad, wsGood] none (by decide)
  exact ⟨h1.2.1 (by decide) rfl (by decide), h2.2.2 (by decide) (by decide)⟩

/-- C10 (implicit): disconnect never reads its collection_id argument and
removes the session from every collection group it appears in, deleting
any group that becomes empty, so a session unsubscribed with the wrong key
or no key is still fully removed from all group membership. -/
theorem claimC10_disconnect_ignores_key (m : ConnectionManager)
    (ws : WebSocket) (cid cid2 : Option String) (hwf : RegistryWF m) :
    m.disconnect ws cid = m.disconnect ws cid2 ∧
    ws ∉ (m.disconnect ws cid).active_connections ∧
    (∀ p ∈ (m.disconnect ws cid).collection_connections, ws ∉ p.2) ∧
    (∀ p ∈ (m.disconnect ws cid).collection_connections, p.2 ≠ []) := by
  refine ⟨rfl, disconnect_not_mem_active hwf ws cid,
    disconnect_not_in_groups hwf ws cid, ?_⟩
  intro p hp
  exact ((registryWF_disconnect hwf ws cid).2.2 p hp).2.1

/-- Witness for C10 at a concrete registry state and a wrong key. -/
theorem claimC10_witness :
    mEx.disconnect wsBad (some "zzz") = mEx.disconnect wsBad none ∧
    wsBad ∉ (mEx.disconnect wsBad (some "zzz")).active_connections := by
  have h := claimC10_disconnect_ignores_key mEx wsBad (some "zzz") none registryWF_mEx
  exact ⟨h.1, h.2.1⟩

/-- C4 fails as stated: the source `send_to_collection` has no `return
value` statement on any path, so its Python return value is `None` on the
missing-group path as well as after a successful iteration, never the
count the specification promises; the count exists only in the local
`successful_sends` variable. The spec-side return value `some 0` differs
from the code's `none` at the concrete empty registry. -/
theorem claimC4_counterexample :
    (emptyManager.send_to_collection "c1" [("type", "x")]).retval = none ∧
    specBroadcastReturn emptyManager "c1" = some 0 ∧
    (emptyManager.send_to_collection "c1" [("type", "x")]).retval ≠
      specBroadcastReturn emptyManager "c1" := by
  refine ⟨rfl, rfl, ?_⟩
  intro hc
  simp [ConnectionManager.send_to_collection, emptyManager, findKey,
    specBroadcastReturn] at hc

/-- C4 amended: broadcast returns no value (`None` on every path) and only
tallies the number of accepting sessions in its local `successful_sends`
counter; when the group for the key does not exist it returns early
without error, attempting no delivery and leaving the registry unchanged,
and when the group exists the tally equals the number of sessions whose
transport is connected and whose send succeeds. -/
theorem claimC4_broadcast_return (m : ConnectionManager) (c : String)
    (msg : List (String × String)) :
    (m.send_to_collection c msg).retval = none ∧
    (findKey m.collection_connections c = none →
      m.send_to_collection c msg = ⟨m, none, 0, [], [], []⟩) ∧
    (∀ conns, findKey m.collection_connections c = some conns →
      (m.send_to_collection c msg).successful_sends =
        (conns.filter okSend).length) := by
  refine ⟨?_, ?_, ?_⟩
  · cases hf : findKey m.collection_connections c with
    | none => simp [ConnectionManager.send_to_collection, hf]
    | some conns => simp [ConnectionManager.send_to_collection, hf]
  · intro hf
    simp [ConnectionManager.send_to_collection, hf]
  · intro conns hf
    simp [ConnectionManager.send_to_collection, hf, broadcastLoop_sends]

/-- Witness for C4 amended at a concrete registry. -/
theorem claimC4_witness :
    (mEx.send_to_collection "c1" [("k", "v")]).successful_sends = 1 := by
  have h := (claimC4_broadcast_return mEx "c1" [("k", "v")]).2.2
    [wsBad, wsGood] rfl
  rw [h]
  decide

/-- C5: during one broadcast the iterated snapshot is exactly the group as
it was at the call (failing sessions are collected aside, never removed
mid-iteration); a session that is not connected or whose send raises ends
up in the collected list and, after the single broadcast, is removed from
the active list and from every collection group; per-session failures do
not abort the broadcast, since the delivered list is exactly the connected
non-raising members of the snapshot, regardless of failures before them;
and a subsequent broadcast to any key never iterates the evicted session
again. -/
theorem claimC5_eviction (m : ConnectionManager) (c : String)
    (msg : List (String × String)) (conns : List WebSocket) (w : WebSocket)
    (hwf : RegistryWF m)
    (hf : findKey m.collection_connections c = some conns)
    (hmem : w ∈ conns) (hbad : badSend w = true) :
    (m.send_to_collection c msg).iterated = conns ∧
    w ∈ (m.send_to_collection c msg).evicted ∧
    (m.send_to_collection c msg).delivered = conns.filter okSend ∧
    w ∉ (m.send_to_collection c msg).manager.active_connections ∧
    (∀ p ∈ (m.send_to_collection c msg).manager.collection_connections,
      w ∉ p.2) ∧
    (∀ (c2 : String) (msg2 : List (String × String)),
      w ∉ ((m.send_to_collection c msg).manager.send_to_collection
        c2 msg2).iterated) := by
  have hloop := broadcastLoop_evicted conns 0 [] []
  have hwev : w ∈ (broadcastLoop conns 0 [] []).2.2 := by
    rw [hloop]
    simp only [List.nil_append]
    exact List.mem_filter.mpr ⟨hmem, hbad⟩
  have hmach : (m.send_to_collection c msg).manager =
      (broadcastLoop conns 0 [] []).2.2.foldl
        (fun acc c => acc.disconnect c none) m := by
    simp [ConnectionManager.send_to_collection, hf]
  refine ⟨?_, ?_, ?_, ?_, ?_, ?_⟩
  · simp [ConnectionManager.send_to_collection, hf]
  · simp only [ConnectionManager.send_to_collection, hf]
    exact hwev
  · simp [ConnectionManager.send_to_collection, hf,
      broadcastLoop_delivered]
  · rw [hmach]
    exact foldl_disconnect_not_active hwf hwev
  · rw [hmach]
    exact foldl_disconnect_not_in_groups hwf hwev
  · intro c2 msg2
    set m2 := (m.send_to_collection c msg).manager with hm2
    have hng : ∀ p ∈ m2.collection_connections, w ∉ p.2 := by
      rw [hmach]
      exact foldl_disconnect_not_in_groups hwf hwev
    cases hf2 : findKey m2.collection_connections c2 with
    | none => simp [ConnectionManager.send_to_collection, hf2]
    | some conns2 =>
      simp only [ConnectionManager.send_to_collection, hf2]
      exact hng (c2, conns2) (findKey_mem hf2)

/-- Witness for C5: in the concrete registry, the raising session is
evicted by one broadcast, the healthy one still receives the frame, and a
repeat broadcast does not iterate the evicted session. -/
theorem claimC5_witness :
    wsBad ∈ (mEx.send_to_collection "c1" [("k", "v")]).evicted ∧
    (mEx.send_to_collection "c1" [("k", "v")]).delivered =
      List.filter okSend [wsBad, wsGood] ∧
    wsBad ∉ ((mEx.send_to_collection "c1" [("k", "v")]).manager.send_to_collection
      "c1" [("k", "v")]).iterated := by
  have h := claimC5_eviction mEx "c1" [("k", "v")] [wsBad, wsGood] wsBad
    registryWF_mEx rfl (by decide) (by decide)
  exact ⟨h.2.1, h.2.2.1, h.2.2.2.2.2 "c1" [("k", "v")]⟩

/-- C3 fails for the persistence half: `ScriptRepository.insert_one`
catches every exception and returns `False`, so the persistence step never
raises, and `generate_script_in_background` discards that return value and
proceeds to mark the job completed. At a concrete persistence failure
(`insertOk = false`) the full trace writes the in-progress, finalizing and
completed records — never a failure record — so a status lookup before the
retention delete reports `completed` with progress 1, not the claimed
Failed with an error string. -/
theorem claimC3_counterexample :
    generate_script_in_background "j1" (.ok ()) false 0 =
      [TrackerEvent.set 0 "j1" ⟨"in_progress", 0.1, none⟩,
       TrackerEvent.set 0 "j1" ⟨"finalizing", 0.9, none⟩,
       TrackerEvent.set 0 "j1" ⟨"completed", 1, none⟩,
       TrackerEvent.remove 300 "j1"] ∧
    (generate_script_in_background "j1" (.ok ()) false 0).filter
      isErrorSet = [] ∧
    findKey (runEvents [] (List.take 3
      (generate_script_in_background "j1" (.ok ()) false 0))) "j1" =
      some ⟨"completed", 1, none⟩ := by
  refine ⟨by simp [generate_script_in_background, bgTryBody], rfl, rfl⟩

/-- C3 amended: only a failure of the backend call is recorded — the
`except Exception` clause writes the terminal failure record (source
status string `error`, the embedding of the design status Failed) with the
error message captured as a string and returns normally (the embedded
function is total, so no exception propagates). A persistence failure
cannot raise: `insert_one` converts it into a `False` return that the
background task ignores, so the job is marked completed and no failure
record is ever written for it. The broker-path handler
`handle_data_collected` likewise swallows a generation failure and
returns normally to its invoker with the registry unchanged. -/
theorem claimC3_failure_behaviour (tasks : TaskMap) (script_id : String)
    (t0 : ℚ) (e : String) (insertOk : Bool) :
    findKey (runEvents tasks
      (generate_script_in_background script_id (.error e) insertOk t0))
      script_id = some ⟨"error", 0, some e⟩ ∧
    (generate_script_in_background script_id (.ok ()) false t0).filter
      isErrorSet = [] ∧
    (∀ (msg : InboundEvent) (ins2 : Except String Bool) (freshId : String)
        (cm : ConnectionManager) (e2 : String),
      handle_data_collected msg (.error e2) ins2 freshId cm = (cm, [])) := by
  refine ⟨?_, ?_, ?_⟩
  · simp [generate_script_in_background, bgTryBody, runEvents, applyEvent,
      findKey_setKey_self]
  · simp [generate_script_in_background, bgTryBody, isErrorSet]
  · intro msg ins2 freshId cm e2
    rfl

/-- Witness for C3 amended at a concrete failing backend call. -/
theorem claimC3_witness :
    findKey (runEvents []
      (generate_script_in_background "j1" (.error "boom") true 0)) "j1" =
      some ⟨"error", 0, some "boom"⟩ :=
  (claimC3_failure_behaviour [] "j1" 0 "boom" true).1

/-- C8 fails as stated: the 300-second cleanup (`await asyncio.sleep(300)`
followed by the guarded delete) sits on the success path only, so a job
that reaches the terminal failure state is never removed from the tracker
by the background task. At the concrete failing job the full mutation
trace contains no removal event, and the error record stays in the
tracker. -/
theorem claimC8_counterexample :
    generate_script_in_background "j1" (.error "boom") true 0 =
      [TrackerEvent.set 0 "j1" ⟨"in_progress", 0.1, none⟩,
       TrackerEvent.set 0 "j1" ⟨"error", 0, some "boom"⟩] ∧
    (generate_script_in_background "j1" (.error "boom") true 0).filter
      isRemoveEvent = [] ∧
    findKey (runEvents []
      (generate_script_in_background "j1" (.error "boom") true 0)) "j1" =
      some ⟨"error", 0, some "boom"⟩ := by
  refine ⟨rfl, rfl, rfl⟩

/-- C8 amended: only a job that reaches the Completed terminal state is
removed from the tracker, exactly 300 seconds after its terminal
transition (the whole success trace runs at call time t0 and the single
removal is stamped t0 + 300, whatever the discarded insert result was);
after the removal a status lookup no longer returns a tracker record for
the id. A job that reaches the failure state is never removed by the
background task; it remains until the explicit delete endpoint removes
it. -/
theorem claimC8_retention (tasks : TaskMap) (script_id : String) (t0 : ℚ)
    (e : String) (insertOk : Bool)
    (hkeys : (tasks.map Prod.fst).Nodup) :
    (generate_script_in_background script_id (.ok ()) insertOk t0 =
      [TrackerEvent.set t0 script_id ⟨"in_progress", 0.1, none⟩,
       TrackerEvent.set t0 script_id ⟨"finalizing", 0.9, none⟩,
       TrackerEvent.set t0 script_id ⟨"completed", 1, none⟩,
       TrackerEvent.remove (t0 + 300) script_id]) ∧
    findKey (runEvents tasks
      (generate_script_in_background script_id (.ok ()) insertOk t0))
      script_id = none ∧
    (∀ (repoHas : Bool) (rec : TaskRecord),
      get_script_status (runEvents tasks
        (generate_script_in_background script_id (.ok ()) insertOk t0))
        repoHas script_id ≠ .fromTracker rec) ∧
    (generate_script_in_background script_id (.error e) insertOk t0).filter
      isRemoveEvent = [] := by
  have hnone : findKey (runEvents tasks
      (generate_script_in_background script_id (.ok ()) insertOk t0))
      script_id = none := by
    simp only [generate_script_in_background, bgTryBody, runEvents,
      List.foldl_cons, List.foldl_nil, applyEvent]
    exact findKey_eraseKey_self
      (setKey_keys_nodup _ _ (setKey_keys_nodup _ _ (setKey_keys_nodup _ _ hkeys)))
  refine ⟨rfl, hnone, ?_, ?_⟩
  · intro repoHas rec
    simp only [get_script_status, hnone]
    cases repoHas <;> simp
  · simp [generate_script_in_background, bgTryBody, isRemoveEvent]

/-- Witness for C8 amended: concrete successful job is gone from the
tracker after the retention sleep and delete. -/
theorem claimC8_witness :
    findKey (runEvents []
      (generate_script_in_background "j1" (.ok ()) true 0)) "j1" = none :=
  (claimC8_retention [] "j1" 0 "x" true (by decide)).2.1

/-- C9 fails as stated: `create_script` performs no duplicate check at all
(there is no DuplicateJob error in the source; ids are fresh uuid4 values),
so a create against an id that already holds a non-expired record silently
overwrites that record with a fresh queued one instead of failing and
leaving it unchanged. Concretely, creating over the completed job `j1`
replaces its record. -/
theorem claimC9_counterexample :
    findKey tasksEx "j1" = some ⟨"completed", 1, none⟩ ∧
    (create_script tasksEx "j1").1 = [("j1", ⟨"queued", 0, none⟩)] ∧
    (create_script tasksEx "j1").2 = ⟨"j1", "queued", "Script generation started"⟩ ∧
    (⟨"queued", 0, none⟩ : TaskRecord) ≠ ⟨"completed", 1, none⟩ := by
  refine ⟨rfl, rfl, rfl, by decide⟩

/-- C9 amended: create never fails and never preserves an existing record
under the same id: it unconditionally writes a fresh queued record
(status `queued`, progress 0) for the supplied id and returns the queued
response; records under other ids are untouched, and since the tracker is
a keyed map the write preserves one-record-per-id. -/
theorem claimC9_create_overwrites (tasks : TaskMap) (freshId : String) :
    findKey (create_script tasks freshId).1 freshId =
      some ⟨"queued", 0, none⟩ ∧
    (create_script tasks freshId).2 =
      ⟨freshId, "queued", "Script generation started"⟩ ∧
    (∀ k, k ≠ freshId →
      findKey (create_script tasks freshId).1 k = findKey tasks k) ∧
    ((tasks.map Prod.fst).Nodup →
      (((create_script tasks freshId).1).map Prod.fst).Nodup) := by
  refine ⟨findKey_setKey_self _ _ _, rfl, ?_, ?_⟩
  · intro k hk
    exact findKey_setKey_ne _ _ _ _ hk
  · intro hn
    exact setKey_keys_nodup _ _ hn

/-- Witness for C9 amended at the concrete tracker. -/
theorem claimC9_witness :
    findKey (create_script tasksEx "j1").1 "j1" = some ⟨"queued", 0, none⟩ :=
  (claimC9_create_overwrites tasksEx "j1").1

/-- C1 fails as stated: in `consume_data_collected` the `except Exception`
clause that catches a raising callback sits inside the
`async with message.process()` block, so the block always exits normally
and the event is acknowledged even when the handler raises; the broker
never gets the chance to redeliver. Concretely, a handler that raises is
still answered with an ack. -/
theorem claimC1_counterexample :
    consumeOne (.ok msgEx) (fun _ => .raises "boom") = .ack ∧
    AckAction.ack ≠ AckAction.reject := by
  exact ⟨rfl, by decide⟩

/-- C1 amended: every consumed event whose processing block runs is
acknowledged, whatever the handler does — a handler that returns normally
is acknowledged (the only direction of the claimed equivalence the code
satisfies), and a handler that raises is acknowledged as well because the
exception is caught inside the acknowledgement scope; likewise an
undecodable body is acknowledged and dropped. -/
theorem claimC1_ack_behaviour (decoded : Except String InboundEvent)
    (handler : InboundEvent → HandlerOutcome) :
    consumeOne decoded handler = .ack := by
  cases decoded with
  | error e => rfl
  | ok ev =>
    cases h : handler ev with
    | returns => simp [consumeOne, processBlockBody, h]
    | raises msg => simp [consumeOne, processBlockBody, h]

/-- Witness for C1 amended at a concrete handler. -/
theorem claimC1_witness :
    consumeOne (.ok msgEx) (fun _ => .returns) = .ack :=
  claimC1_ack_behaviour (.ok msgEx) (fun _ => .returns)

/-- C2 fails only in the shape of the notification: the frame built by
`handle_data_collected` carries the document id under the key `script_id`
(plus a human-readable `message` field) and has no `job_id` key, while the
claim requires a `job_id` field. At a concrete successful event the
effect trace is persist, then broadcast of that frame to the group of the
event's collection id (delivered to the healthy session), then publish. -/
theorem claimC2_counterexample :
    (handle_data_collected msgEx (.ok ⟨none⟩) (.ok true) "sid9" mEx).2 =
      [PipelineEffect.insertDoc ⟨"sid9", some "c1", some "web", some "src"⟩,
       PipelineEffect.broadcast "c1" (notificationFrame "c1" "sid9") [wsGood],
       PipelineEffect.publish
         ⟨⟨"sid9", some "c1", some "web", some "src"⟩, some "web",
          some "src", some "c1", some "sid9"⟩] ∧
    findKey (notificationFrame "c1" "sid9") "job_id" = none ∧
    findKey (specNotification "c1" "sid9") "job_id" = some "sid9" := by
  refine ⟨rfl, rfl, rfl⟩

/-- C2 amended: for an inbound event whose generation succeeds, whose
persistence returns a truthy result and whose collection id is a
non-empty string, the pipeline first persists the decorated document,
then broadcasts the notification frame `{type: script_generated,
collection_id, script_id, message, status: completed}` (script_id, not
job_id) to the registry group keyed by the event's collection id — every
subscribed session whose transport is connected and does not raise
receives that frame exactly once — and then publishes the outbound broker
event carrying the result. -/
theorem claimC2_success_pipeline (msg : InboundEvent) (g : GeneratedScript)
    (freshId : String) (cm : ConnectionManager) (cid : String)
    (hwf : RegistryWF cm) (hcol : msg.collection_id = some cid)
    (hne : cid ≠ "") :
    handle_data_collected msg (.ok g) (.ok true) freshId cm =
      ((cm.send_to_collection cid
          (notificationFrame cid (g.preset_id.getD freshId))).manager,
       [PipelineEffect.insertDoc
          ⟨g.preset_id.getD freshId, some cid, msg.source_type, msg.source_name⟩,
        PipelineEffect.broadcast cid
          (notificationFrame cid (g.preset_id.getD freshId))
          ((cm.send_to_collection cid
            (notificationFrame cid (g.preset_id.getD freshId))).delivered),
        PipelineEffect.publish
          ⟨⟨g.preset_id.getD freshId, some cid, msg.source_type, msg.source_name⟩,
           msg.source_type, msg.source_name, some cid,
           some (g.preset_id.getD freshId)⟩]) ∧
    findKey (notificationFrame cid (g.preset_id.getD freshId)) "type" =
      some "script_generated" ∧
    findKey (notificationFrame cid (g.preset_id.getD freshId)) "collection_id" =
      some cid ∧
    findKey (notificationFrame cid (g.preset_id.getD freshId)) "status" =
      some "completed" ∧
    findKey (notificationFrame cid (g.preset_id.getD freshId)) "script_id" =
      some (g.preset_id.getD freshId) ∧
    (∀ conns, findKey cm.collection_connections cid = some conns →
      ∀ w ∈ conns, okSend w = true →
        ((cm.send_to_collection cid
          (notificationFrame cid (g.preset_id.getD freshId))).delivered).count
            w = 1) := by
  refine ⟨?_, ?_, ?_, ?_, ?_, ?_⟩
  · simp [handle_data_collected, hcol, hne]
  · simp [notificationFrame, findKey]
  · simp [notificationFrame, findKey]
  · simp [notificationFrame, findKey]
  · simp [notificationFrame, findKey]
  · intro conns hfc w hw hok
    have hdel : (cm.send_to_collection cid
        (notificationFrame cid (g.preset_id.getD freshId))).delivered =
        conns.filter okSend := by
      simp [ConnectionManager.send_to_collection, hfc, broadcastLoop_delivered]
    rw [hdel]
    have hnod : conns.Nodup := (hwf.2.2 (cid, conns) (findKey_mem hfc)).1
    exact List.count_eq_one_of_mem (hnod.filter okSend)
      (List.mem_filter.mpr ⟨hw, hok⟩)

/-- Witness for C2 amended: the healthy subscribed session receives the
frame exactly once in the concrete run. -/
theorem claimC2_witness :
    ((mEx.send_to_collection "c1" (notificationFrame "c1" "sid9")).delivered).count
      wsGood = 1 :=
  (claimC2_success_pipeline msgEx ⟨none⟩ "sid9" mEx "c1" registryWF_mEx rfl
    (by decide)).2.2.2.2.2 [wsBad, wsGood] rfl wsGood (by decide) (by decide)
